import Mathlib

/-!
Verification of the supabase-mcp migration-manager / database-client pair.

The database client (src/client.py) is embedded directly.  The migration
manager is not shipped in this tree (only its test suite is), so its pure
functions are modelled from the specification, pinned wherever possible by
the assertions of tests/services/database/test_migration_manager.py.
-/

namespace SupaMCP

/-- The single-quote character (code point 39). -/
def quoteChar : Char := Char.ofNat 39

/-- A one-character string holding a single quote. -/
def sq : String := ⟨[quoteChar]⟩

/-- Whitespace as matched by the regex class used for name collapsing:
space, tab, newline, carriage return, form feed, vertical tab. -/
def isWs (c : Char) : Bool :=
  c.toNat = 32 || c.toNat = 9 || c.toNat = 10 || c.toNat = 13 || c.toNat = 12 || c.toNat = 11

/-- Characters kept by the sanitizer: lowercase ASCII letters, digits, underscore. -/
def keepChar (c : Char) : Bool :=
  (97 ≤ c.toNat && c.toNat ≤ 122) || (48 ≤ c.toNat && c.toNat ≤ 57) || c.toNat = 95

/-- One step of whitespace-run collapsing.  The state is the output built so
far together with a flag recording whether the previous character was
whitespace (so a run only emits one underscore). -/
def collapseStep (acc : List Char × Bool) (c : Char) : List Char × Bool :=
  if isWs c then
    if acc.2 then acc else (acc.1 ++ ['_'], true)
  else
    (acc.1 ++ [c], false)

/-- Collapse every run of whitespace to a single underscore. -/
def collapseWs (l : List Char) : List Char :=
  (l.foldl collapseStep ([], false)).1

/-- Modelled from the spec: MigrationManager.sanitize_name (the manager module
is absent from the tree).  Lower-case the input, collapse each whitespace run
to one underscore, delete every character outside lowercase letters, digits
and underscore, and truncate to 100 characters. -/
def sanitize_name (s : String) : String :=
  ⟨((collapseWs (s.data.map Char.toLower)).filter keepChar).take 100⟩

theorem collapse_foldl_no_ws (l : List Char) (acc : List Char)
    (h : ∀ c ∈ l, isWs c = false) :
    l.foldl collapseStep (acc, false) = (acc ++ l, false) := by
  induction l generalizing acc with
  | nil => simp
  | cons c rest ih =>
    have hc : isWs c = false := h c (by simp)
    rw [List.foldl_cons]
    show List.foldl collapseStep (collapseStep (acc, false) c) rest = _
    rw [show collapseStep (acc, false) c = (acc ++ [c], false) by simp [collapseStep, hc]]
    rw [ih (acc ++ [c]) (fun d hd => h d (by simp [hd]))]
    simp

theorem collapseWs_no_ws (l : List Char) (h : ∀ c ∈ l, isWs c = false) :
    collapseWs l = l := by
  unfold collapseWs
  rw [collapse_foldl_no_ws l [] h]
  simp

theorem keep_toLower (c : Char) (h : keepChar c = true) : Char.toLower c = c := by
  simp only [keepChar, Bool.or_eq_true, Bool.and_eq_true, decide_eq_true_eq] at h
  unfold Char.toLower
  rw [if_neg]
  simp only [ge_iff_le, not_and, not_le]
  omega

theorem keep_not_ws (c : Char) (h : keepChar c = true) : isWs c = false := by
  simp only [keepChar, Bool.or_eq_true, Bool.and_eq_true, decide_eq_true_eq] at h
  simp only [isWs, Bool.or_eq_false_iff, decide_eq_false_iff_not]
  omega

theorem map_id_of_fix {l : List Char} {f : Char → Char} (h : ∀ c ∈ l, f c = c) :
    l.map f = l := by
  induction l with
  | nil => rfl
  | cons a t ih =>
    simp only [List.map_cons, h a (by simp)]
    rw [ih (fun c hc => h c (by simp [hc]))]

theorem sanitize_all_keep (x : String) :
    ∀ c ∈ (sanitize_name x).data, keepChar c = true := by
  intro c hc
  have hmem : c ∈ ((collapseWs (x.data.map Char.toLower)).filter keepChar) :=
    List.take_subset _ _ hc
  exact (List.mem_filter.mp hmem).2

theorem str_length_data (s : String) : s.length = s.data.length := by
  cases s
  rfl

theorem sanitize_len_data (x : String) : (sanitize_name x).data.length ≤ 100 := by
  unfold sanitize_name
  simp [List.length_take]

theorem sanitize_len (x : String) : (sanitize_name x).length ≤ 100 := by
  rw [str_length_data]
  exact sanitize_len_data x

theorem sanitize_idem (x : String) :
    sanitize_name (sanitize_name x) = sanitize_name x := by
  have hall := sanitize_all_keep x
  show (⟨((collapseWs ((sanitize_name x).data.map Char.toLower)).filter keepChar).take 100⟩ : String)
      = sanitize_name x
  rw [map_id_of_fix (fun c hc => keep_toLower c (hall c hc))]
  rw [collapseWs_no_ws _ (fun c hc => keep_not_ws c (hall c hc))]
  rw [List.filter_eq_self.mpr (fun c hc => hall c hc)]
  rw [List.take_of_length_le (sanitize_len_data x)]

/-- C6: sanitize_name is idempotent, its output has length at most 100 and
consists only of lowercase letters, digits and underscores; its behavior on
the concrete inputs pinned by the repository test suite (lower-casing,
whitespace collapsing, special-character deletion) is as asserted there. -/
theorem c6_sanitize_name_spec (x : String) :
    sanitize_name (sanitize_name x) = sanitize_name x ∧
    (sanitize_name x).length ≤ 100 ∧
    (sanitize_name x).data.all keepChar = true ∧
    sanitize_name "simple_name" = "simple_name" ∧
    sanitize_name "name with spaces" = "name_with_spaces" ∧
    sanitize_name "name-with!special@chars#" = "namewithspecialchars" ∧
    sanitize_name "UPPERCASE_NAME" = "uppercase_name" ∧
    sanitize_name "User-Profile_Table!" = "userprofile_table" :=
  ⟨sanitize_idem x, sanitize_len x, List.all_eq_true.mpr (sanitize_all_keep x),
   by decide, by decide, by decide, by decide, by decide⟩

/-- Lowercase hexadecimal digit characters. -/
def isLowerHex (c : Char) : Bool :=
  (48 ≤ c.toNat && c.toNat ≤ 57) || (97 ≤ c.toNat && c.toNat ≤ 102)

/-- Hexadecimal digit for a value below 16 (lowercase letters). -/
def hexDigitChar (n : Nat) : Char :=
  if n = 0 then '0' else if n = 1 then '1' else if n = 2 then '2'
  else if n = 3 then '3' else if n = 4 then '4' else if n = 5 then '5'
  else if n = 6 then '6' else if n = 7 then '7' else if n = 8 then '8'
  else if n = 9 then '9' else if n = 10 then 'a' else if n = 11 then 'b'
  else if n = 12 then 'c' else if n = 13 then 'd' else if n = 14 then 'e'
  else 'f'

/-- Render the low 32 bits of a number as 8 lowercase hexadecimal digits. -/
def toHex8 (n : Nat) : List Char :=
  (List.range 8).map (fun i => hexDigitChar (n / 16 ^ i % 16))

/-- A deterministic 32-bit fold over the bytes of the input. -/
def hashFold (l : List Char) : Nat :=
  l.foldl (fun a c => (a * 31 + c.toNat) % 4294967296) 5381

/-- Modelled from the spec: MigrationManager._generate_short_hash (the manager
module is absent from the tree).  The spec allows any deterministic digest;
only stability and the 8-lowercase-hex-character output shape are specified,
which this realisation has. -/
def generate_short_hash (s : String) : String := ⟨toHex8 (hashFold s.data)⟩

theorem hexDigitChar_lower : ∀ m, m < 16 → isLowerHex (hexDigitChar m) = true := by decide

theorem toHex8_length (n : Nat) : (toHex8 n).length = 8 := by
  simp [toHex8]

theorem toHex8_all_hex (n : Nat) : (toHex8 n).all isLowerHex = true := by
  rw [List.all_eq_true]
  intro c hc
  obtain ⟨i, _, rfl⟩ := List.mem_map.mp hc
  exact hexDigitChar_lower _ (Nat.mod_lt _ (by omega))

/-- C9: the short-hash function is deterministic (it is a pure function of the
input bytes, stated as congruence) and its output is always exactly 8
lowercase hexadecimal characters, including on the empty string. -/
theorem c9_short_hash_shape (s : String) :
    (generate_short_hash s).length = 8 ∧
    (generate_short_hash s).data.all isLowerHex = true ∧
    (generate_short_hash "").length = 8 ∧
    (generate_short_hash "").data.all isLowerHex = true ∧
    (∀ t : String, t = s → generate_short_hash t = generate_short_hash s) := by
  refine ⟨?_, ?_, ?_, ?_, ?_⟩
  · rw [str_length_data]
    exact toHex8_length _
  · exact toHex8_all_hex _
  · decide
  · decide
  · intro t ht
    rw [ht]

/-- C9 witness: the theorem applied at a concrete input. -/
theorem c9_short_hash_shape_witness :
    (generate_short_hash "test string").length = 8 ∧
    generate_short_hash "test string" = generate_short_hash "test string" :=
  ⟨(c9_short_hash_shape "test string").1,
   (c9_short_hash_shape "test string").2.2.2.2 "test string" rfl⟩

/-- Uppercase a string (ASCII, as the keyword matching is case-insensitive). -/
def upperStr (s : String) : String := ⟨s.data.map Char.toUpper⟩

/-- Lowercase a string (ASCII). -/
def lowerStr (s : String) : String := ⟨s.data.map Char.toLower⟩

/-- Word separators for the statement tokenizers: whitespace, comma,
parentheses, semicolon. -/
def isSep (c : Char) : Bool :=
  isWs c || c.toNat = 44 || c.toNat = 40 || c.toNat = 41 || c.toNat = 59

/-- Accumulating word scanner over the character list. -/
def wordsAux : List Char → List Char → List String
  | [], acc => if acc = [] then [] else [⟨acc.reverse⟩]
  | c :: rest, acc =>
    if isSep c then
      if acc = [] then wordsAux rest [] else ⟨acc.reverse⟩ :: wordsAux rest []
    else wordsAux rest (c :: acc)

/-- Break a statement into words, dropping separators. -/
def splitWords (s : String) : List String := wordsAux s.data []

/-- The part of an identifier after the last dot (bare name without schema). -/
def lastSegment : List Char → List Char → List Char
  | [], acc => acc.reverse
  | c :: rest, acc => if c.toNat = 46 then lastSegment rest [] else lastSegment rest (c :: acc)

/-- Strip a schema qualifier from an identifier. -/
def stripSchema (w : String) : String := ⟨lastSegment w.data []⟩

/-- Optional noise keywords skipped between a DDL verb and the identifier. -/
def noiseTok (w : String) : Bool :=
  upperStr w = "IF" || upperStr w = "NOT" || upperStr w = "EXISTS" ||
  upperStr w = "OR" || upperStr w = "REPLACE"

/-- Drop a leading run of noise keywords. -/
def dropNoise : List String → List String
  | [] => []
  | w :: rest => if noiseTok w then dropNoise rest else w :: rest

/-- Is the word a DML verb? -/
def dmlTok (w : String) : Bool :=
  upperStr w = "INSERT" || upperStr w = "UPDATE" || upperStr w = "DELETE"

/-- Scan for the table identifier of a DDL or DML statement. -/
def scanTable : List String → Option String
  | [] => none
  | w1 :: rest =>
    if upperStr w1 = "CREATE" || upperStr w1 = "ALTER" || upperStr w1 = "DROP"
        || upperStr w1 = "TRUNCATE" then
      match dropNoise rest with
      | w2 :: rest2 => if upperStr w2 = "TABLE" then (dropNoise rest2).head? else none
      | [] => none
    else if upperStr w1 = "INSERT" then
      match rest with
      | w2 :: rest2 => if upperStr w2 = "INTO" then rest2.head? else none
      | [] => none
    else if upperStr w1 = "UPDATE" then rest.head?
    else if upperStr w1 = "DELETE" then
      match rest with
      | w2 :: rest2 => if upperStr w2 = "FROM" then rest2.head? else none
      | [] => none
    else none

/-- Modelled from the spec: MigrationManager._extract_table_name.  Handles
CREATE/ALTER/DROP/TRUNCATE TABLE and the DML targets, returning the bare
name with the sentinel unknown on no match. -/
def extract_table_name (text : String) : String :=
  match scanTable (splitWords text) with
  | some n => stripSchema n
  | none => "unknown"

/-- The word following the first occurrence of a keyword, noise skipped. -/
def afterKeywordTok (kw : String) : List String → Option String
  | [] => none
  | w :: rest => if upperStr w = kw then (dropNoise rest).head? else afterKeywordTok kw rest

/-- Shared shape of the keyword-based object extractors. -/
def extractAfterKw (kw : String) (text : String) : String :=
  match afterKeywordTok kw (splitWords text) with
  | some n => stripSchema n
  | none => "unknown"

/-- Modelled from the spec: MigrationManager._extract_function_name. -/
def extract_function_name (text : String) : String := extractAfterKw "FUNCTION" text

/-- Modelled from the spec: MigrationManager._extract_view_name. -/
def extract_view_name (text : String) : String := extractAfterKw "VIEW" text

/-- Modelled from the spec: MigrationManager._extract_index_name. -/
def extract_index_name (text : String) : String := extractAfterKw "INDEX" text

/-- Modelled from the spec: MigrationManager._extract_extension_name. -/
def extract_extension_name (text : String) : String := extractAfterKw "EXTENSION" text

/-- Modelled from the spec: MigrationManager._extract_type_name (TYPE or DOMAIN). -/
def extract_type_name (text : String) : String :=
  match afterKeywordTok "TYPE" (splitWords text) with
  | some n => stripSchema n
  | none => extractAfterKw "DOMAIN" text

/-- The object after ON, skipping an optional TABLE keyword. -/
def afterOnTok : List String → Option String
  | [] => none
  | w :: rest =>
    if upperStr w = "ON" then
      match rest with
      | [] => none
      | w2 :: rest2 => if upperStr w2 = "TABLE" then rest2.head? else some w2
    else afterOnTok rest

/-- Modelled from the spec: MigrationManager._extract_dcl_object_name. -/
def extract_dcl_object_name (text : String) : String :=
  match afterOnTok (splitWords text) with
  | some n => stripSchema n
  | none => "unknown"

/-- The token list after the first GRANT or REVOKE keyword. -/
def afterGrantRevoke : List String → Option (List String)
  | [] => none
  | w :: rest =>
    if upperStr w = "GRANT" || upperStr w = "REVOKE" then some rest
    else afterGrantRevoke rest

/-- First privilege keyword of a token list, lower-cased. -/
def findPriv : List String → Option String
  | [] => none
  | w :: rest =>
    if upperStr w = "SELECT" then some "select"
    else if upperStr w = "INSERT" then some "insert"
    else if upperStr w = "UPDATE" then some "update"
    else if upperStr w = "DELETE" then some "delete"
    else if upperStr w = "ALL" then some "all"
    else findPriv rest

/-- Modelled from the spec: MigrationManager._extract_privilege.  First
privilege keyword found after GRANT/REVOKE, lower-cased; the sentinel
privilege on no match.  A comma-separated list collapses to its first
element because the tokenizer splits on commas and the scan stops at the
first keyword. -/
def extract_privilege (text : String) : String :=
  match afterGrantRevoke (splitWords text) with
  | some rest =>
    match findPriv rest with
    | some p => p
    | none => "privilege"
  | none => "privilege"

theorem findPriv_mem (ws : List String) (p : String) (h : findPriv ws = some p) :
    p ∈ ["select", "insert", "update", "delete", "all"] := by
  induction ws with
  | nil => simp [findPriv] at h
  | cons w rest ih =>
    unfold findPriv at h
    split at h
    · simp_all
    · split at h
      · simp_all
      · split at h
        · simp_all
        · split at h
          · simp_all
          · split at h
            · simp_all
            · exact ih h

/-- C8: the privilege extractor returns the first privilege keyword after
GRANT/REVOKE among SELECT, INSERT, UPDATE, DELETE, ALL[ PRIVILEGES],
lower-cased; a comma-separated list collapses to its first element; the
REVOKE ALL example yields all; the sentinel privilege is returned on no
match (its output always lies in the five keywords plus the sentinel). -/
theorem c8_extract_privilege (s : String) :
    extract_privilege s ∈ ["select", "insert", "update", "delete", "all", "privilege"] ∧
    extract_privilege "REVOKE ALL ON users FROM anon;" = "all" ∧
    extract_privilege "GRANT ALL PRIVILEGES ON users TO authenticated;" = "all" ∧
    extract_privilege "GRANT SELECT, INSERT, UPDATE ON users TO authenticated;" = "select" ∧
    extract_privilege "GRANT DELETE ON users TO authenticated;" = "delete" ∧
    extract_privilege "" = "privilege" ∧
    extract_privilege "SELECT * FROM users;" = "privilege" := by
  refine ⟨?_, by decide, by decide, by decide, by decide, by decide, by decide⟩
  unfold extract_privilege
  split
  · rename_i rest hrest
    split
    · rename_i p hp
      have := findPriv_mem rest p hp
      simp only [List.mem_cons, List.not_mem_nil, or_false] at this ⊢
      tauto
    · simp
  · simp

/-- Statement categories of the classifier. -/
inductive StatementCategory
  | DDL
  | DML
  | DCL
  | TCL
  | OTHER
  deriving DecidableEq

/-- One classified statement of a validation result (spec section 3). -/
structure ClassifiedStatement where
  text : String
  category : StatementCategory
  command : String
  needs_migration : Bool
  schema_name : Option String
  ordinal : Nat
  deriving DecidableEq

/-- A validation result: the classified statements in source order plus the
verbatim original query (spec section 3). -/
structure ValidationResult where
  statements : List ClassifiedStatement
  original_query : String
  deriving DecidableEq

/-- Does the statement text contain the given keyword as a word? -/
def hasKw (text kw : String) : Bool :=
  (splitWords text).any (fun w => upperStr w = kw)

/-- Fallback of the generic extractor: FROM clause, then INTO clause. -/
def genericFallback (ws : List String) : String :=
  match afterKeywordTok "FROM" ws with
  | some n => stripSchema n
  | none =>
    match afterKeywordTok "INTO" ws with
    | some n => stripSchema n
    | none => "unknown"

/-- Modelled from the spec: MigrationManager._extract_generic_object_name.
Tries CREATE/ALTER/DROP keyword-name, then FROM, then INTO; first match
wins; sentinel unknown. -/
def extract_generic_object_name (text : String) : String :=
  match splitWords text with
  | w1 :: _ :: w3 :: _ =>
    if upperStr w1 = "CREATE" || upperStr w1 = "ALTER" || upperStr w1 = "DROP" then
      stripSchema w3
    else genericFallback (splitWords text)
  | ws => genericFallback ws

/-- Modelled from the spec: the per-statement branch of
MigrationManager.generate_descriptive_name.  Dispatch by command to the
matching extractor set and compose an underscore-joined slug; the schema
defaults to public when the statement carries no explicit qualifier.  For
table DDL the trailing token is the extracted table name (the spec leaves
this token ambiguous and asks for one consistent rule, which this is). -/
def nameForStatement (st : ClassifiedStatement) : String :=
  let cmd := lowerStr st.command
  let c := upperStr st.command
  let schema := st.schema_name.getD "public"
  let t := st.text
  if dmlTok st.command then
    cmd ++ "_" ++ schema ++ "_" ++ extract_table_name t
  else if c = "GRANT" || c = "REVOKE" then
    cmd ++ "_" ++ extract_privilege t ++ "_" ++ schema ++ "_" ++ extract_dcl_object_name t
  else if hasKw t "FUNCTION" then
    cmd ++ "_function_" ++ schema ++ "_" ++ extract_function_name t
  else if hasKw t "VIEW" then
    cmd ++ "_view_" ++ schema ++ "_" ++ extract_view_name t
  else if hasKw t "INDEX" then
    cmd ++ "_index_" ++ schema ++ "_" ++ extract_index_name t
  else if hasKw t "EXTENSION" then
    cmd ++ "_extension_" ++ schema ++ "_" ++ extract_extension_name t
  else if hasKw t "TYPE" || hasKw t "DOMAIN" then
    cmd ++ "_type_" ++ schema ++ "_" ++ extract_type_name t
  else if hasKw t "TABLE" then
    cmd ++ "_" ++ extract_table_name t ++ "_" ++ schema ++ "_" ++ extract_table_name t
  else
    cmd ++ "_" ++ extract_generic_object_name t ++ "_" ++ schema

/-- Modelled from the spec: MigrationManager.generate_descriptive_name.  Scan
the statements in source order, pick the first with needs_migration true and
name it through the extractor dispatch; with no such statement, fall back to
migration_ followed by the short hash of the original query. -/
def generate_descriptive_name (result : ValidationResult) : String :=
  match result.statements.find? (fun st => st.needs_migration) with
  | some st => nameForStatement st
  | none => "migration_" ++ generate_short_hash result.original_query

theorem find_first {α : Type} (p : α → Bool) (pre post : List α) (s : α)
    (h1 : ∀ t ∈ pre, p t = false) (h2 : p s = true) :
    (pre ++ s :: post).find? p = some s := by
  induction pre with
  | nil =>
    simp only [List.nil_append]
    exact List.find?_cons_of_pos post h2
  | cons a t ih =>
    have ha : ¬ p a := by
      rw [h1 a (List.mem_cons_self a t)]
      exact Bool.false_ne_true
    rw [List.cons_append, List.find?_cons_of_neg _ ha]
    exact ih (fun x hx => h1 x (List.mem_cons_of_mem a hx))

/-- C5: generate_descriptive_name scans statements in source order and bases
the name on the first whose needs_migration flag is true; when no statement
needs migration it returns migration_ followed by a stable 8-character
lowercase-hex hash of the original query. -/
theorem c5_generate_descriptive_name (pre post stmts : List ClassifiedStatement)
    (s : ClassifiedStatement) (q : String)
    (h1 : ∀ t ∈ pre, t.needs_migration = false) (h2 : s.needs_migration = true)
    (h3 : ∀ t ∈ stmts, t.needs_migration = false) :
    generate_descriptive_name ⟨pre ++ s :: post, q⟩ = nameForStatement s ∧
    generate_descriptive_name ⟨stmts, q⟩ = "migration_" ++ generate_short_hash q ∧
    (generate_short_hash q).length = 8 ∧
    (generate_short_hash q).data.all isLowerHex = true := by
  refine ⟨?_, ?_, (c9_short_hash_shape q).1, (c9_short_hash_shape q).2.1⟩
  · unfold generate_descriptive_name
    rw [show (⟨pre ++ s :: post, q⟩ : ValidationResult).statements = pre ++ s :: post from rfl]
    rw [find_first (fun st => st.needs_migration) pre post s h1 h2]
  · unfold generate_descriptive_name
    rw [show (⟨stmts, q⟩ : ValidationResult).statements = stmts from rfl]
    rw [List.find?_eq_none.mpr (fun x hx => by rw [h3 x hx]; exact Bool.false_ne_true)]

/-- A concrete CREATE TABLE statement used by witnesses. -/
def createStmt : ClassifiedStatement :=
  ⟨"CREATE TABLE logs (id SERIAL PRIMARY KEY);", StatementCategory.DDL, "CREATE", true, none, 1⟩

/-- A concrete SELECT statement used by witnesses. -/
def selectStmt : ClassifiedStatement :=
  ⟨"SELECT * FROM users;", StatementCategory.DML, "SELECT", false, none, 0⟩

/-- C5 witness: the theorem applied at a concrete mixed batch (SELECT then
CREATE TABLE) and at a lone SELECT. -/
theorem c5_generate_descriptive_name_witness :
    generate_descriptive_name ⟨[selectStmt] ++ createStmt :: [], "mixed"⟩ = nameForStatement createStmt ∧
    generate_descriptive_name ⟨[selectStmt], "SELECT * FROM users;"⟩ =
      "migration_" ++ generate_short_hash "SELECT * FROM users;" :=
  ⟨(c5_generate_descriptive_name [selectStmt] [] [selectStmt] createStmt "mixed"
      (fun t ht => by rw [List.mem_singleton.mp ht]; rfl) rfl
      (fun t ht => by rw [List.mem_singleton.mp ht]; rfl)).1,
   (c5_generate_descriptive_name [selectStmt] [] [selectStmt] createStmt "SELECT * FROM users;"
      (fun t ht => by rw [List.mem_singleton.mp ht]; rfl) rfl
      (fun t ht => by rw [List.mem_singleton.mp ht]; rfl)).2.1⟩

/-- Double every single quote of a character list (textual substitution). -/
def escChars : List Char → List Char
  | [] => []
  | c :: rest =>
    if c = quoteChar then quoteChar :: quoteChar :: escChars rest
    else c :: escChars rest

/-- Modelled from the spec: the quote-escaping step of
MigrationManager.prepare_migration_query — plain textual substitution that
doubles every single quote, applied exactly once per call. -/
def escape_sql_string (s : String) : String := ⟨escChars s.data⟩

/-- The fixed ledger INSERT prefix.  The repository test suite pins the
ledger relation to supabase_migrations.schema_migrations. -/
def ledgerIns : String :=
  "INSERT INTO supabase_migrations.schema_migrations (version, name, statements)"

/-- Modelled from the spec: MigrationManager.prepare_migration_query (the
manager module is absent from the tree).  generate_query_timestamp reads the
wall clock, so the version string is taken here as the version argument.
The final name is the client-given name when supplied, otherwise the
sanitized descriptive name; the original SQL is embedded once-escaped in a
single-quoted literal of an INSERT against the ledger relation that the
in-repo test suite asserts (supabase_migrations.schema_migrations). -/
def prepare_migration_query (result : ValidationResult) (original_sql : String)
    (client_name : Option String) (version : String) : String × String :=
  let final_name :=
    match client_name with
    | some n => n
    | none => sanitize_name (generate_descriptive_name result)
  let escaped := escape_sql_string original_sql
  let migration_sql :=
    ledgerIns ++ " VALUES (" ++ sq ++ version ++ sq ++ ", " ++ sq ++ final_name ++ sq
      ++ ", " ++ sq ++ escaped ++ sq ++ ");"
  (migration_sql, final_name)

/-- Does the needle match at the head of the haystack? -/
def leadMatch : List Char → List Char → Bool
  | _, [] => true
  | [], _ :: _ => false
  | a :: as, b :: bs => a = b && leadMatch as bs

/-- Does the needle occur anywhere in the haystack? -/
def occursIn (needle : List Char) : List Char → Bool
  | [] => leadMatch [] needle
  | c :: t => leadMatch (c :: t) needle || occursIn needle t

/-- String-level substring test. -/
def strOccurs (needle hay : String) : Bool := occursIn needle.data hay.data

theorem leadMatch_nil (hay : List Char) : leadMatch hay [] = true := by
  cases hay <;> rfl

theorem leadMatch_self_append (n rest : List Char) : leadMatch (n ++ rest) n = true := by
  induction n with
  | nil => simp [leadMatch_nil]
  | cons a t ih => simp [leadMatch, ih]

theorem occursIn_self_append (n b : List Char) : occursIn n (n ++ b) = true := by
  cases hn : n ++ b with
  | nil =>
    have hn2 : n = [] := by cases n <;> simp_all
    subst hn2
    rfl
  | cons c t =>
    show (leadMatch (c :: t) n || occursIn n t) = true
    rw [← hn, leadMatch_self_append]
    simp

theorem occursIn_append (n a b : List Char) : occursIn n (a ++ (n ++ b)) = true := by
  induction a with
  | nil =>
    rw [List.nil_append]
    exact occursIn_self_append n b
  | cons c t ih =>
    rw [List.cons_append]
    show (leadMatch _ n || occursIn n (t ++ (n ++ b))) = true
    rw [ih]
    simp

theorem strOccurs_append (n pre suf : String) :
    strOccurs n (pre ++ (n ++ suf)) = true := by
  unfold strOccurs
  rw [String.data_append, String.data_append]
  exact occursIn_append n.data pre.data suf.data

/-- C1 (amended): prepare_migration_query produces an INSERT against the
ledger relation supabase_migrations.schema_migrations(version, name,
statements), populated with the version string, the final name and the
escaped original SQL; the final name is the client name when given and the
sanitized descriptive name otherwise. -/
theorem c1_prepare_migration_query_ledger (result : ValidationResult)
    (original_sql version : String) (client_name : Option String) :
    strOccurs ledgerIns (prepare_migration_query result original_sql client_name version).1 = true ∧
    strOccurs (sq ++ version ++ sq)
      (prepare_migration_query result original_sql client_name version).1 = true ∧
    strOccurs (sq ++ (prepare_migration_query result original_sql client_name version).2 ++ sq)
      (prepare_migration_query result original_sql client_name version).1 = true ∧
    strOccurs (sq ++ escape_sql_string original_sql ++ sq)
      (prepare_migration_query result original_sql client_name version).1 = true ∧
    (prepare_migration_query result original_sql client_name version).2 =
      (match client_name with
       | some n => n
       | none => sanitize_name (generate_descriptive_name result)) := by
  refine ⟨?_, ?_, ?_, ?_, rfl⟩
  · simpa only [strOccurs, prepare_migration_query, String.data_append, List.append_assoc,
      List.nil_append] using
      occursIn_append ledgerIns.data []
        ((" VALUES (" ++ sq ++ version ++ sq ++ ", "
          ++ sq ++ (prepare_migration_query result original_sql client_name version).2 ++ sq
          ++ ", " ++ sq ++ escape_sql_string original_sql ++ sq ++ ");").data)
  · simpa only [strOccurs, prepare_migration_query, String.data_append, List.append_assoc,
      List.nil_append] using
      occursIn_append (sq ++ version ++ sq).data (ledgerIns ++ " VALUES (").data
        ((", " ++ sq ++ (prepare_migration_query result original_sql client_name version).2 ++ sq
          ++ ", " ++ sq ++ escape_sql_string original_sql ++ sq ++ ");").data)
  · simpa only [strOccurs, prepare_migration_query, String.data_append, List.append_assoc,
      List.nil_append] using
      occursIn_append
        (sq ++ (prepare_migration_query result original_sql client_name version).2 ++ sq).data
        (ledgerIns ++ " VALUES (" ++ sq ++ version ++ sq ++ ", ").data
        ((", " ++ sq ++ escape_sql_string original_sql ++ sq ++ ");").data)
  · simpa only [strOccurs, prepare_migration_query, String.data_append, List.append_assoc,
      List.nil_append] using
      occursIn_append (sq ++ escape_sql_string original_sql ++ sq).data
        (ledgerIns ++ " VALUES (" ++ sq ++ version ++ sq ++ ", "
          ++ sq ++ (prepare_migration_query result original_sql client_name version).2 ++ sq
          ++ ", ").data
        (");").data

/-- C1 counterexample: on a concrete call, the produced migration SQL does
not insert into a relation named schema_migrations.schema_migrations — the
ledger relation asserted by the repository test suite is
supabase_migrations.schema_migrations. -/
theorem c1_counterexample :
    strOccurs "INSERT INTO schema_migrations.schema_migrations"
      (prepare_migration_query ⟨[], "SELECT 1"⟩ "SELECT 1" (some "m") "20250101000000").1
      = false ∧
    strOccurs "INSERT INTO supabase_migrations.schema_migrations"
      (prepare_migration_query ⟨[], "SELECT 1"⟩ "SELECT 1" (some "m") "20250101000000").1
      = true := by
  constructor
  · decide
  · decide

theorem escChars_count (l : List Char) :
    (escChars l).count quoteChar = 2 * l.count quoteChar := by
  induction l with
  | nil => rfl
  | cons c rest ih =>
    by_cases hc : c = quoteChar
    · subst hc
      simp only [escChars, if_pos rfl, List.count_cons, ih]
      simp
      omega
    · simp only [escChars, if_neg hc, List.count_cons, ih]
      have : (c == quoteChar) = false := by simp [hc]
      simp [this]

theorem escChars_length (l : List Char) :
    (escChars l).length = l.length + l.count quoteChar := by
  induction l with
  | nil => rfl
  | cons c rest ih =>
    by_cases hc : c = quoteChar
    · subst hc
      simp only [escChars, if_pos rfl, List.length_cons, List.count_cons, ih]
      simp
      omega
    · simp only [escChars, if_neg hc, List.length_cons, List.count_cons, ih]
      have : (c == quoteChar) = false := by simp [hc]
      simp [this]
      omega

/-- The O Brien INSERT pinned by the test suite, built around single quotes. -/
def obrienQuery : String :=
  "INSERT INTO users (name) VALUES (" ++ sq ++ "O" ++ sq ++ sq ++ "Brien" ++ sq ++ ");"

/-- A validation result for the O Brien INSERT as a classified statement. -/
def obrienResult : ValidationResult :=
  ⟨[⟨obrienQuery, StatementCategory.DML, "INSERT", true, none, 0⟩], obrienQuery⟩

/-- C4: the escaping step doubles every single quote exactly once per call
(quote count doubles and each quote adds one character, so non-quote text
is untouched), applying it twice doubles the escaping again, and on the
O Brien INSERT the produced migration SQL contains
VALUES with the doubly-quoted O Brien literal, exactly as the test asserts. -/
theorem c4_escape_quotes (l : List Char) :
    (escChars l).count quoteChar = 2 * l.count quoteChar ∧
    (escChars l).length = l.length + l.count quoteChar ∧
    (escChars (escChars l)).count quoteChar = 4 * l.count quoteChar ∧
    strOccurs ("VALUES (" ++ sq ++ sq ++ "O" ++ sq ++ sq ++ sq ++ sq ++ "Brien" ++ sq ++ sq ++ ")")
      (prepare_migration_query obrienResult obrienQuery none "20250101000000").1 = true := by
  refine ⟨escChars_count l, escChars_length l, ?_, by decide⟩
  rw [escChars_count, escChars_count]
  omega

/-- A result row: a string-keyed mapping, embedded as an association list. -/
def Row : Type := List (String × String)

instance : DecidableEq Row := fun a b => List.hasDecEq a b

/-- Errors raised by the client (src/exceptions): ConnectionError,
PermissionError, QueryError, each carrying its message. -/
inductive Err
  | connectionError (msg : String)
  | permissionError (msg : String)
  | queryError (msg : String)
  deriving DecidableEq

/-- An exception surfaced to the caller of the client: either an exception
raised in the call body and propagated unchanged, or a tenacity RetryError
wrapping the final attempt's exception after retry exhaustion — the retry
decorator on _get_pool (src/client.py lines 46-49) leaves reraise at its
default False, so exhaustion raises RetryError rather than the wrapped
exception itself. -/
inductive CallError
  | raised (e : Err)
  | retryError (last : Err)
  deriving DecidableEq

/-- Outcome of one attempt to create the connection pool in _get_pool:
success, a psycopg2 OperationalError, or any other exception. -/
inductive PoolOutcome
  | ok
  | operationalError (msg : String)
  | unexpectedError (msg : String)
  deriving DecidableEq

/-- Driver-level errors distinguished by the handlers of readonly_query. -/
inductive PgError
  | insufficientPrivilege (msg : String)
  | undefinedTable (msg : String)
  | undefinedColumn (msg : String)
  | otherError (msg : String)
  deriving DecidableEq

/-- Outcome of executing the query on the cursor: the fetchall result (None
modelled as none) plus the status message, or a driver error. -/
inductive ExecOutcome
  | success (fetched : Option (List Row)) (status : String)
  | failure (e : PgError)
  deriving DecidableEq

/-- The structured result of readonly_query (class QueryResult). -/
structure QueryResult where
  rows : List Row
  count : Nat
  status : String
  deriving DecidableEq

/-- One body execution of _get_pool (src/client.py lines 50-66): an
OperationalError or any other exception is wrapped into ConnectionError
with the corresponding message prefix. -/
def get_pool_once : PoolOutcome → Except Err Unit
  | PoolOutcome.ok => Except.ok ()
  | PoolOutcome.operationalError m =>
    Except.error (Err.connectionError ("Could not connect to database: " ++ m))
  | PoolOutcome.unexpectedError m =>
    Except.error (Err.connectionError ("Unexpected connection error: " ++ m))

/-- The tenacity retry configuration on _get_pool:
stop_after_attempt(3), wait_exponential(multiplier=1, min=4, max=15). -/
structure RetryPolicy where
  stopAfterAttempt : Nat
  waitMultiplier : Nat
  waitMin : Nat
  waitMax : Nat
  deriving DecidableEq

/-- The retry policy attached to _get_pool in src/client.py lines 46-49. -/
def poolRetryPolicy : RetryPolicy :=
  { stopAfterAttempt := 3, waitMultiplier := 1, waitMin := 4, waitMax := 15 }

/-- The wait tenacity computes before retry number n (n starts at 1):
the exponential multiplier * 2 ^ n clamped into [min, max]. -/
def waitFor (p : RetryPolicy) (n : Nat) : Nat :=
  max p.waitMin (min (p.waitMultiplier * 2 ^ n) p.waitMax)

/-- The tenacity retry driver as configured on _get_pool: budget is the
number of retries remaining after the current attempt; attempt i is
consulted, and on error the next index is tried until the budget is
exhausted.  Because the decorator does not set reraise=True, exhaustion
surfaces a RetryError wrapping the last attempt's exception instead of
re-raising that exception. -/
def runRetry (out : Nat → Except Err Unit) : Nat → Nat → Except CallError Unit
  | 0, i =>
    match out i with
    | Except.ok a => Except.ok a
    | Except.error e => Except.error (CallError.retryError e)
  | b + 1, i =>
    match out i with
    | Except.ok a => Except.ok a
    | Except.error _ => runRetry out b (i + 1)

/-- _get_pool under its retry decorator: up to stopAfterAttempt attempts;
on exhaustion the caller sees tenacity RetryError, not the ConnectionError
raised inside the body. -/
def get_pool (attempts : Nat → PoolOutcome) : Except CallError Unit :=
  runRetry (fun i => get_pool_once (attempts i)) (poolRetryPolicy.stopAfterAttempt - 1) 0

/-- The observable connection-lifecycle effects of readonly_query. -/
inductive Effect
  | getconn
  | setSessionReadonly
  | beginReadOnly
  | execute
  | commit
  | rollback
  | putconn
  deriving DecidableEq

/-- How the error handlers of readonly_query (src/client.py lines 116-124)
map driver errors: InsufficientPrivilege to PermissionError,
UndefinedTable/UndefinedColumn to QueryError with the bare message, any
other psycopg2 error to QueryError with the Query failed prefix. -/
def mapPgError : PgError → Err
  | PgError.insufficientPrivilege m => Err.permissionError ("Access denied: " ++ m)
  | PgError.undefinedTable m => Err.queryError m
  | PgError.undefinedColumn m => Err.queryError m
  | PgError.otherError m => Err.queryError ("Query failed: " ++ m)

/-- readonly_query (src/client.py lines 85-129) over the pool-attempt
outcomes and the execution outcome: acquire the pool (retried), borrow a
connection, run BEGIN TRANSACTION READ ONLY then the query; on success
fetchall-or-empty, commit and build the result; errors are mapped by the
handlers; the inner finally always rolls back after the query completes and
the outer finally always returns the connection to the pool.  Exceptions of
the body propagate unchanged (raised); a pool-retry exhaustion propagates as
tenacity RetryError, unhandled by readonly_query.  The returned effect list
is the connection-lifecycle trace of that control flow. -/
def readonly_query (attempts : Nat → PoolOutcome) (o : ExecOutcome) :
    Except CallError QueryResult × List Effect :=
  match get_pool attempts with
  | Except.error e => (Except.error e, [])
  | Except.ok _ =>
    match o with
    | ExecOutcome.success fetched st =>
      let rows := fetched.getD []
      (Except.ok ⟨rows, rows.length, st⟩,
       [Effect.getconn, Effect.setSessionReadonly, Effect.beginReadOnly, Effect.execute,
        Effect.commit, Effect.rollback, Effect.putconn])
    | ExecOutcome.failure e =>
      (Except.error (CallError.raised (mapPgError e)),
       [Effect.getconn, Effect.setSessionReadonly, Effect.beginReadOnly, Effect.execute,
        Effect.rollback, Effect.putconn])

theorem runRetry_error_form (P : Err → Prop) (out : Nat → Except Err Unit)
    (h : ∀ i, ∃ e, out i = Except.error e ∧ P e) :
    ∀ b i, ∃ e, runRetry out b i = Except.error (CallError.retryError e) ∧ P e := by
  intro b
  induction b with
  | zero =>
    intro i
    obtain ⟨e, he, hp⟩ := h i
    refine ⟨e, ?_, hp⟩
    show (match out i with
          | Except.ok a => Except.ok a
          | Except.error e => Except.error (CallError.retryError e))
        = Except.error (CallError.retryError e)
    rw [he]
  | succ b ih =>
    intro i
    obtain ⟨e, he, _⟩ := h i
    obtain ⟨e2, he2, hp2⟩ := ih (i + 1)
    refine ⟨e2, ?_, hp2⟩
    show (match out i with
          | Except.ok a => Except.ok a
          | Except.error _ => runRetry out b (i + 1))
        = Except.error (CallError.retryError e2)
    rw [he]
    exact he2

theorem get_pool_retry_error (attempts : Nat → PoolOutcome)
    (h : ∀ i, attempts i ≠ PoolOutcome.ok) :
    ∃ m, get_pool attempts
      = Except.error (CallError.retryError (Err.connectionError m)) := by
  have h2 : ∀ i, ∃ e, get_pool_once (attempts i) = Except.error e ∧
      ∃ m, e = Err.connectionError m := by
    intro i
    cases hai : attempts i with
    | ok => exact absurd hai (h i)
    | operationalError m =>
      refine ⟨Err.connectionError ("Could not connect to database: " ++ m), ?_, ⟨_, rfl⟩⟩
      rfl
    | unexpectedError m =>
      refine ⟨Err.connectionError ("Unexpected connection error: " ++ m), ?_, ⟨_, rfl⟩⟩
      rfl
  obtain ⟨e, he, m, rfl⟩ :=
    runRetry_error_form _ _ h2 (poolRetryPolicy.stopAfterAttempt - 1) 0
  exact ⟨m, he⟩

/-- C2: the handled-error and success clauses of the claim hold — an
insufficient-privilege failure surfaces PermissionError with the Access
denied prefix, undefined table/column and any other driver failure surface
QueryError, and success returns rows with their count and status — but when
the pool cannot be established the surfaced exception is tenacity RetryError
wrapping the last ConnectionError, never a ConnectionError itself as the
claim (and the docstring of readonly_query, src/client.py lines 95-98)
promises, because the retry decorator omits reraise=True; the final
conjunct evaluates the code at the concrete failing input. -/
theorem c2_readonly_query_errors (attempts : Nat → PoolOutcome) (o : ExecOutcome) :
    ((∀ i, attempts i ≠ PoolOutcome.ok) →
      (∃ m, (readonly_query attempts o).1
        = Except.error (CallError.retryError (Err.connectionError m))) ∧
      (∀ m2, (readonly_query attempts o).1
        ≠ Except.error (CallError.raised (Err.connectionError m2)))) ∧
    (∀ m, get_pool attempts = Except.ok () →
      o = ExecOutcome.failure (PgError.insufficientPrivilege m) →
      (readonly_query attempts o).1
        = Except.error (CallError.raised (Err.permissionError ("Access denied: " ++ m)))) ∧
    (∀ m, get_pool attempts = Except.ok () →
      o = ExecOutcome.failure (PgError.undefinedTable m) →
      (readonly_query attempts o).1 = Except.error (CallError.raised (Err.queryError m))) ∧
    (∀ m, get_pool attempts = Except.ok () →
      o = ExecOutcome.failure (PgError.undefinedColumn m) →
      (readonly_query attempts o).1 = Except.error (CallError.raised (Err.queryError m))) ∧
    (∀ m, get_pool attempts = Except.ok () →
      o = ExecOutcome.failure (PgError.otherError m) →
      (readonly_query attempts o).1
        = Except.error (CallError.raised (Err.queryError ("Query failed: " ++ m)))) ∧
    (∀ fetched st, get_pool attempts = Except.ok () →
      o = ExecOutcome.success fetched st →
      (readonly_query attempts o).1 =
        Except.ok ⟨fetched.getD [], (fetched.getD []).length, st⟩) ∧
    (readonly_query (fun _ => PoolOutcome.operationalError "refused") o).1
      = Except.error (CallError.retryError
          (Err.connectionError ("Could not connect to database: " ++ "refused"))) := by
  refine ⟨?_, ?_, ?_, ?_, ?_, ?_, ?_⟩
  · intro h
    obtain ⟨m, hm⟩ := get_pool_retry_error attempts h
    have hres : (readonly_query attempts o).1
        = Except.error (CallError.retryError (Err.connectionError m)) := by
      simp [readonly_query, hm]
    refine ⟨⟨m, hres⟩, ?_⟩
    intro m2 heq
    rw [hres] at heq
    exact CallError.noConfusion (Except.error.inj heq)
  · intro m hp ho
    subst ho
    simp [readonly_query, hp, mapPgError]
  · intro m hp ho
    subst ho
    simp [readonly_query, hp, mapPgError]
  · intro m hp ho
    subst ho
    simp [readonly_query, hp, mapPgError]
  · intro m hp ho
    subst ho
    simp [readonly_query, hp, mapPgError]
  · intro fetched st hp ho
    subst ho
    simp [readonly_query, hp]
  · rfl

/-- C2 witness: the theorem applied at concrete outcomes — a permanently
failing pool surfaces the RetryError-wrapped ConnectionError, and with a
healthy pool an insufficient-privilege failure raises the Access denied
PermissionError. -/
theorem c2_readonly_query_errors_witness :
    (∃ m, (readonly_query (fun _ => PoolOutcome.operationalError "refused")
      (ExecOutcome.success none "SELECT 1")).1
        = Except.error (CallError.retryError (Err.connectionError m))) ∧
    (readonly_query (fun _ => PoolOutcome.ok)
      (ExecOutcome.failure (PgError.insufficientPrivilege "nope"))).1 =
      Except.error (CallError.raised (Err.permissionError ("Access denied: " ++ "nope"))) :=
  ⟨((c2_readonly_query_errors (fun _ => PoolOutcome.operationalError "refused")
      (ExecOutcome.success none "SELECT 1")).1
      (fun _ h => PoolOutcome.noConfusion h)).1,
   (c2_readonly_query_errors (fun _ => PoolOutcome.ok)
      (ExecOutcome.failure (PgError.insufficientPrivilege "nope"))).2.1
      "nope" rfl rfl⟩

/-- C3: once a connection is borrowed (the pool was established), every exit
path of readonly_query — success or any failure — ends by returning the
connection to the pool, and an explicit rollback is always issued after the
query completes, after the commit on the success path. -/
theorem c3_connection_discipline (attempts : Nat → PoolOutcome) (o : ExecOutcome)
    (h : get_pool attempts = Except.ok ()) :
    ∃ pr : List Effect,
      (readonly_query attempts o).2 = pr ++ [Effect.rollback, Effect.putconn] ∧
      Effect.execute ∈ pr ∧
      (∀ fetched st, o = ExecOutcome.success fetched st → Effect.commit ∈ pr) ∧
      (readonly_query attempts o).2.count Effect.putconn = 1 ∧
      (readonly_query attempts o).2.getLast? = some Effect.putconn := by
  cases o with
  | success fetched st =>
    refine ⟨[Effect.getconn, Effect.setSessionReadonly, Effect.beginReadOnly,
      Effect.execute, Effect.commit], ?_, ?_, ?_, ?_, ?_⟩
    · simp [readonly_query, h]
    · decide
    · intro f s hc
      decide
    · simp [readonly_query, h]
    · simp [readonly_query, h]
  | failure e =>
    refine ⟨[Effect.getconn, Effect.setSessionReadonly, Effect.beginReadOnly,
      Effect.execute], ?_, ?_, ?_, ?_, ?_⟩
    · simp [readonly_query, h]
    · decide
    · intro f s hc
      exact ExecOutcome.noConfusion hc
    · simp [readonly_query, h]
    · simp [readonly_query, h]

/-- C3 witness: the theorem applied with a healthy pool and a successful
execution. -/
theorem c3_connection_discipline_witness :
    ∃ pr : List Effect,
      (readonly_query (fun _ => PoolOutcome.ok) (ExecOutcome.success none "SELECT 1")).2
        = pr ++ [Effect.rollback, Effect.putconn] ∧
      Effect.execute ∈ pr ∧
      (∀ fetched st,
        ExecOutcome.success none "SELECT 1" = ExecOutcome.success fetched st →
        Effect.commit ∈ pr) ∧
      (readonly_query (fun _ => PoolOutcome.ok)
        (ExecOutcome.success none "SELECT 1")).2.count Effect.putconn = 1 ∧
      (readonly_query (fun _ => PoolOutcome.ok)
        (ExecOutcome.success none "SELECT 1")).2.getLast? = some Effect.putconn :=
  c3_connection_discipline (fun _ => PoolOutcome.ok) (ExecOutcome.success none "SELECT 1") rfl

theorem runRetry_pool_ok (attempts : Nat → PoolOutcome) :
    ∀ b i, (runRetry (fun j => get_pool_once (attempts j)) b i = Except.ok ()) ↔
      (∃ k, k ≤ b ∧ attempts (i + k) = PoolOutcome.ok) := by
  intro b
  induction b with
  | zero =>
    intro i
    constructor
    · intro hr
      refine ⟨0, Nat.le_refl 0, ?_⟩
      rw [Nat.add_zero]
      cases hai : attempts i with
      | ok => rfl
      | operationalError m =>
        simp only [runRetry, hai, get_pool_once] at hr
        exact Except.noConfusion hr
      | unexpectedError m =>
        simp only [runRetry, hai, get_pool_once] at hr
        exact Except.noConfusion hr
    · rintro ⟨k, hk, hak⟩
      have hk0 : k = 0 := Nat.le_zero.mp hk
      subst hk0
      rw [Nat.add_zero] at hak
      simp [runRetry, hak, get_pool_once]
  | succ b ih =>
    intro i
    constructor
    · intro hr
      simp only [runRetry] at hr
      cases hai : attempts i with
      | ok => exact ⟨0, Nat.zero_le _, by rw [Nat.add_zero]; exact hai⟩
      | operationalError m =>
        rw [hai] at hr
        simp only [get_pool_once] at hr
        obtain ⟨k, hk, hak⟩ := (ih (i + 1)).mp hr
        exact ⟨k + 1, by omega, by rw [show i + (k + 1) = i + 1 + k by omega]; exact hak⟩
      | unexpectedError m =>
        rw [hai] at hr
        simp only [get_pool_once] at hr
        obtain ⟨k, hk, hak⟩ := (ih (i + 1)).mp hr
        exact ⟨k + 1, by omega, by rw [show i + (k + 1) = i + 1 + k by omega]; exact hak⟩
    · rintro ⟨k, hk, hak⟩
      simp only [runRetry]
      cases hai : attempts i with
      | ok => simp [get_pool_once]
      | operationalError m =>
        simp only [get_pool_once]
        have hkpos : k ≠ 0 := by
          intro h0
          subst h0
          rw [Nat.add_zero] at hak
          rw [hak] at hai
          exact PoolOutcome.noConfusion hai
        refine (ih (i + 1)).mpr ⟨k - 1, by omega, ?_⟩
        rw [show i + 1 + (k - 1) = i + k by omega]
        exact hak
      | unexpectedError m =>
        simp only [get_pool_once]
        have hkpos : k ≠ 0 := by
          intro h0
          subst h0
          rw [Nat.add_zero] at hak
          rw [hak] at hai
          exact PoolOutcome.noConfusion hai
        refine (ih (i + 1)).mpr ⟨k - 1, by omega, ?_⟩
        rw [show i + 1 + (k - 1) = i + k by omega]
        exact hak

/-- C7: the pool-creation retry policy of the execution collaborator is
stop_after_attempt(3) with exponential backoff waits clamped to start at 4
seconds and capped at 15 seconds; pool creation succeeds exactly when one of
the first 3 attempts succeeds (so at most 3 attempts are ever made), while
the query itself is executed at most once per call — never retried. -/
theorem c7_retry_policy :
    poolRetryPolicy = ⟨3, 1, 4, 15⟩ ∧
    waitFor poolRetryPolicy 1 = 4 ∧
    (∀ n, waitFor poolRetryPolicy n ≤ 15) ∧
    (∀ n, 4 ≤ waitFor poolRetryPolicy n) ∧
    (∀ attempts : Nat → PoolOutcome,
      (get_pool attempts = Except.ok ()) ↔ (∃ j, j < 3 ∧ attempts j = PoolOutcome.ok)) ∧
    (∀ (attempts : Nat → PoolOutcome) (o : ExecOutcome),
      (readonly_query attempts o).2.count Effect.execute ≤ 1) := by
  refine ⟨rfl, by decide, ?_, ?_, ?_, ?_⟩
  · intro n
    unfold waitFor poolRetryPolicy
    simp only [Nat.one_mul]
    omega
  · intro n
    unfold waitFor poolRetryPolicy
    simp only [Nat.one_mul]
    omega
  · intro attempts
    have := runRetry_pool_ok attempts (poolRetryPolicy.stopAfterAttempt - 1) 0
    unfold get_pool
    rw [this]
    constructor
    · rintro ⟨k, hk, hak⟩
      exact ⟨k, by simp [poolRetryPolicy] at hk ⊢; omega, by simpa using hak⟩
    · rintro ⟨j, hj, haj⟩
      exact ⟨j, by simp [poolRetryPolicy] at hj ⊢; omega, by simpa using haj⟩
  · intro attempts o
    cases hgp : get_pool attempts with
    | error e => simp [readonly_query, hgp]
    | ok u =>
      cases u
      cases o with
      | success fetched st =>
        simp [readonly_query, hgp]
      | failure e =>
        simp [readonly_query, hgp]

/-- C7 witness: the theorem applied at concrete inputs — a pool healthy from
the first attempt succeeds, and a concrete call executes at most once. -/
theorem c7_retry_policy_witness :
    get_pool (fun _ => PoolOutcome.ok) = Except.ok () ∧
    (readonly_query (fun _ => PoolOutcome.ok)
      (ExecOutcome.success none "SELECT 1")).2.count Effect.execute ≤ 1 :=
  ⟨(c7_retry_policy.2.2.2.2.1 (fun _ => PoolOutcome.ok)).mpr ⟨0, by omega, rfl⟩,
   c7_retry_policy.2.2.2.2.2 (fun _ => PoolOutcome.ok) (ExecOutcome.success none "SELECT 1")⟩

/-- C10: every successful readonly_query result has count equal to the
length of its rows, and a fetch that yields no rows (fetchall returning
None) produces the empty row list with count 0 — never a null rows field. -/
theorem c10_count_rows (attempts : Nat → PoolOutcome) (o : ExecOutcome) (r : QueryResult)
    (h : (readonly_query attempts o).1 = Except.ok r) :
    r.count = r.rows.length ∧
    (∀ st, o = ExecOutcome.success none st → r.rows = [] ∧ r.count = 0) := by
  cases hgp : get_pool attempts with
  | error e =>
    rw [show readonly_query attempts o = (Except.error e, ([] : List Effect)) from by
      unfold readonly_query
      rw [hgp]] at h
    exact absurd h (by simp)
  | ok u =>
    cases u
    cases o with
    | success fetched st =>
      rw [show readonly_query attempts (ExecOutcome.success fetched st)
          = (Except.ok (⟨fetched.getD [], (fetched.getD []).length, st⟩ : QueryResult),
             [Effect.getconn, Effect.setSessionReadonly, Effect.beginReadOnly, Effect.execute,
              Effect.commit, Effect.rollback, Effect.putconn]) from by
        unfold readonly_query
        rw [hgp]] at h
      have h3 : r = ⟨fetched.getD [], (fetched.getD []).length, st⟩ := (Except.ok.inj h).symm
      subst h3
      refine ⟨rfl, ?_⟩
      intro st2 he
      injection he with h4 h5
      rw [h4]
      exact ⟨rfl, rfl⟩
    | failure e =>
      rw [show readonly_query attempts (ExecOutcome.failure e)
          = (Except.error (CallError.raised (mapPgError e)),
             [Effect.getconn, Effect.setSessionReadonly, Effect.beginReadOnly, Effect.execute,
              Effect.rollback, Effect.putconn]) from by
        unfold readonly_query
        rw [hgp]] at h
      exact absurd h (by simp)

/-- C10 witness: the theorem applied with a healthy pool and a fetch that
yields no rows. -/
theorem c10_count_rows_witness :
    (⟨[], 0, "SELECT 0"⟩ : QueryResult).count = (⟨[], 0, "SELECT 0"⟩ : QueryResult).rows.length :=
  (c10_count_rows (fun _ => PoolOutcome.ok) (ExecOutcome.success none "SELECT 0")
    ⟨[], 0, "SELECT 0"⟩ rfl).1

end SupaMCP
